import Mathlib

/-!
# Verification of the studyAssistant agent core, ingestion pipeline and API

A shallow embedding of the message/tool data model and of the operations in
`src/agent/agent_core.py`, `src/agent/tools/__init__.py`,
`src/agent/rag_logic/data_loader.py`, `src/agent/rag_logic/vector_store.py`
and `src/api.py`, together with theorems settling the specification claims
about them.

Modelling conventions used throughout:
* Python strings are `String` (or `List Char` where index arithmetic matters);
* a Python function that may raise is embedded as a function into `Except`;
* `None` becomes `none`;
* Python `while` loops become fuel-indexed recursions, with theorems showing
  the fuel bound used by the embedding is sufficient where the loop terminates.
-/

namespace StudyAssistant

/-! ## Data model: messages and tool-call requests (`agent_core.py`)

`AgentState.messages` holds heterogeneous values at runtime.  The typed
(`BaseMessage`) layer is `Msg`; the raw layer accepted by `call_model`
(tuples, dicts, plain strings, unknown objects, `None`) is `RawMsg`. -/

/-- A tool invocation request attached to an AI message, after the argument
normalisation of `ToolsState.run` lines 254-285 (the name when present and a
string, else `none`; the argument payload normalised to an optional string). -/
structure ToolCallReq where
  name : Option String
  input : Option String
deriving DecidableEq, Repr

/-- A typed message (`langchain_core.messages.BaseMessage` subclasses as used
by the repository): System / Human / AI / Tool-result.  AI messages carry the
optional `tool_calls` attribute (`none` models an absent or `None` attribute,
`some l` a list value). -/
inductive Msg where
  | system (content : String)
  | human (content : String)
  | ai (content : String) (toolCalls : Option (List ToolCallReq))
  | tool (content : String)
deriving DecidableEq, Repr

/-- The `tool_calls` attribute read by `should_continue` (agent_core.py line
112): AI messages expose their list, other variants have no tool calls. -/
def msgToolCalls : Msg → Option (List ToolCallReq)
  | .ai _ tc => tc
  | _ => none

/-- Python truthiness of a `tool_calls` value: `None` and `[]` are falsy. -/
def pyTruthy : Option (List ToolCallReq) → Bool
  | none => false
  | some l => !l.isEmpty

/-- `should_continue` (agent_core.py lines 109-114): looks at the most recent
message and routes to the tools node iff its `tool_calls` is truthy. -/
def should_continue (msgs : List Msg) (h : msgs ≠ []) : String :=
  if pyTruthy (msgToolCalls (msgs.getLast h)) then "tools" else "end"

/-- C1: for every non-empty conversation state, `should_continue` returns
`"tools"` iff the most recent message carries a non-empty `tool_calls` list,
and returns `"end"` otherwise. -/
theorem should_continue_tools_iff (msgs : List Msg) (h : msgs ≠ []) :
    (should_continue msgs h = "tools" ↔
      ∃ l, msgToolCalls (msgs.getLast h) = some l ∧ l ≠ []) ∧
    (should_continue msgs h = "end" ↔
      ∀ l, msgToolCalls (msgs.getLast h) = some l → l = []) := by
  have hne : ("end" : String) ≠ "tools" := by decide
  have hne2 : ("tools" : String) ≠ "end" := by decide
  unfold should_continue
  cases hb : pyTruthy (msgToolCalls (msgs.getLast h)) with
  | false =>
    cases hopt : msgToolCalls (msgs.getLast h) with
    | none => simp [hopt, hne]
    | some l =>
      have hl : l = [] := by
        rw [hopt] at hb
        simpa [pyTruthy] using hb
      subst hl
      simp [hopt, hne]
  | true =>
    cases hopt : msgToolCalls (msgs.getLast h) with
    | none => rw [hopt] at hb; exact absurd hb (by decide)
    | some l =>
      cases l with
      | nil => rw [hopt] at hb; exact absurd hb (by decide)
      | cons a t => simp [hopt, hne2]

/-- Witness for C1: a state ending in an AI message with one tool call routes
to `"tools"`. -/
theorem should_continue_tools_iff_witness :
    should_continue [Msg.ai "x" (some [⟨some "python_interpreter", some "1+1"⟩])]
      (by simp) = "tools" :=
  (should_continue_tools_iff _ _).1.mpr ⟨[⟨some "python_interpreter", some "1+1"⟩], rfl, by simp⟩

/-! ## The LLM step `call_model` (`agent_core.py` lines 30-106)

The step checks the global model handle, computes a system-message presence
flag over the raw state, coerces every raw message to a typed one, and invokes
the model with the resulting payload.  We embed the payload construction and
the step outcome (`Except`); the model call itself is the external boundary.
The message classes (`HumanMessage`, ...) are modelled as available, which is
the normal import path of lines 10-13. -/

/-- A raw entry of `state['messages']` as inspected by `call_model`:
`None`, a role/content pair (tuple or list of length ≥ 2), an already-typed
message, a dict with a `content` field, a plain string, or an unknown object
(carried here by its stringification, since the code only ever uses
`str(m)` on it). -/
inductive RawMsg where
  | null
  | pair (role : String) (content : String)
  | typed (m : Msg)
  | dict (content : String)
  | str (s : String)
  | other (txt : String)
deriving DecidableEq, Repr

/-- `agent_prompts.STUDY_ASSISTANT_SYSTEM_PROMPT`.  The source constant is a
long behaviour prompt; no claim depends on its text, only on its role as the
content of the prepended System message, so the literal is abbreviated to its
opening sentence here. -/
def STUDY_ASSISTANT_SYSTEM_PROMPT : String :=
  "You are StudyAssistant, a highly intelligent, precise, and supportive academic assistant built on Gemini 2.5 Flash."

/-- ASCII-faithful model of Python `str.lower()` as applied to the role tags
compared on lines 54-58 (all comparisons are against ASCII literals). -/
def pyLower (s : String) : String :=
  String.mk (s.toList.map Char.toLower)

/-- The per-message coercion of `call_model`, lines 46-97: `None` is skipped;
role/content pairs map to the variant selected by the lowered role (unknown
roles become Human); typed messages pass through; dicts with `content`,
plain strings and unknown objects become Human messages. -/
def coerceOne : RawMsg → Option Msg
  | .null => none
  | .pair role content =>
      let r := pyLower role
      if r = "user" ∨ r = "human" then some (.human content)
      else if r = "assistant" ∨ r = "ai" then some (.ai content none)
      else if r = "system" ∨ r = "sys" then some (.system content)
      else some (.human content)
  | .typed m => some m
  | .dict c => some (.human c)
  | .str s => some (.human s)
  | .other t => some (.human t)

/-- The presence check of line 39: `any(isinstance(m, SystemMessage) for m in
messages if isinstance(m, BaseMessage))` — only already-typed System messages
are recognised. -/
def hasSystemMsg (msgs : List RawMsg) : Bool :=
  msgs.any fun m =>
    match m with
    | .typed (.system _) => true
    | _ => false

/-- Lines 41-97: the coerced list starts with the behaviour prompt when no
typed System message is present, followed by the coercion of every raw
message.  (The `except` fallback of lines 98-99 is unreachable here because
the embedded coercion is total.) -/
def coerceMessages (msgs : List RawMsg) : List Msg :=
  (if hasSystemMsg msgs then [] else [.system STUDY_ASSISTANT_SYSTEM_PROMPT])
    ++ msgs.filterMap coerceOne

/-- `str(x)` as used by the line 103 fallback `"".join(str(x) for x in
messages)`.  Python's exact `repr` quoting is immaterial: the branch is
provably unreachable (`coerceMessages_ne_nil`). -/
def rawStr : RawMsg → String
  | .null => "None"
  | .pair r c => "(" ++ r ++ ", " ++ c ++ ")"
  | .typed m =>
      match m with
      | .system c => c
      | .human c => c
      | .ai c _ => c
      | .tool c => c
  | .dict c => c
  | .str s => s
  | .other t => t

/-- Lines 101-103: if nothing valid was coerced, fall back to a single Human
message joining the stringified inputs. -/
def callModelPayload (msgs : List RawMsg) : List Msg :=
  let coerced := coerceMessages msgs
  if coerced.isEmpty then [.human (String.join (msgs.map rawStr))] else coerced

/-- `call_model` (lines 30-106): raises when the global `LLM_WITH_TOOLS` is
uninitialised (line 33), otherwise invokes the model on the coerced payload.
The returned list is the payload passed to `LLM_WITH_TOOLS.invoke`. -/
def call_model (llmInit : Bool) (msgs : List RawMsg) : Except String (List Msg) :=
  if llmInit then .ok (callModelPayload msgs)
  else .error "LLM_WITH_TOOLS is not initialized."

/-- Bool test for the System variant. -/
def isSystem : Msg → Bool
  | .system _ => true
  | _ => false

/-- Number of System messages in a typed message list. -/
def countSystem (l : List Msg) : Nat :=
  l.countP isSystem

/-- The coerced list is never empty: either the behaviour prompt was
prepended, or a typed System message was found, and that message survives
coercion.  Hence the line 101-103 fallback never fires. -/
theorem coerceMessages_ne_nil (msgs : List RawMsg) : coerceMessages msgs ≠ [] := by
  unfold coerceMessages
  cases hsys : hasSystemMsg msgs with
  | false => simp
  | true =>
    obtain ⟨m, hm, hmatch⟩ := List.any_eq_true.mp hsys
    match m, hmatch with
    | .typed (.system c), _ =>
      have hmem : Msg.system c ∈ msgs.filterMap coerceOne :=
        List.mem_filterMap.mpr ⟨.typed (.system c), hm, rfl⟩
      simp only [if_pos rfl]
      simpa using List.ne_nil_of_mem hmem

/-- Since the coerced list is never empty, the payload is exactly the coerced
list. -/
theorem callModelPayload_eq_coerceMessages (msgs : List RawMsg) :
    callModelPayload msgs = coerceMessages msgs := by
  unfold callModelPayload
  rw [if_neg]
  simp [List.isEmpty_iff, coerceMessages_ne_nil]

/-- If no raw message coerces to a System message, the presence flag is
false. -/
theorem hasSystemMsg_false_of_noSys (msgs : List RawMsg)
    (h : ∀ m ∈ msgs, ∀ c, coerceOne m ≠ some (.system c)) :
    hasSystemMsg msgs = false := by
  cases hb : hasSystemMsg msgs with
  | false => rfl
  | true =>
    obtain ⟨m, hm, hmatch⟩ := List.any_eq_true.mp hb
    match m, hmatch with
    | .typed (.system c), _ => exact absurd rfl (h _ hm c)

/-- If no raw message coerces to a System message, the coerced tail contains
no System message. -/
theorem countSystem_filterMap_zero (msgs : List RawMsg)
    (h : ∀ m ∈ msgs, ∀ c, coerceOne m ≠ some (.system c)) :
    countSystem (msgs.filterMap coerceOne) = 0 := by
  unfold countSystem
  rw [List.countP_eq_zero]
  intro x hx
  obtain ⟨m, hm, hcm⟩ := List.mem_filterMap.mp hx
  cases x with
  | system c => exact absurd hcm (h m hm c)
  | human c => simp [isSystem]
  | ai c tc => simp [isSystem]
  | tool c => simp [isSystem]

/-- If no raw message coerces to a System message, the payload carries exactly
one System message: the prepended behaviour prompt. -/
theorem countSystem_payload_one (msgs : List RawMsg)
    (h : ∀ m ∈ msgs, ∀ c, coerceOne m ≠ some (.system c)) :
    countSystem (callModelPayload msgs) = 1 := by
  have hs := hasSystemMsg_false_of_noSys msgs h
  have h0 := countSystem_filterMap_zero msgs h
  rw [callModelPayload_eq_coerceMessages]
  unfold coerceMessages
  rw [hs]
  simp only [Bool.false_eq_true, if_false, List.singleton_append]
  unfold countSystem at h0 ⊢
  rw [List.countP_cons_of_pos _ _ (by rfl)]
  omega

/-- C3 (amended): the presence check recognises only typed System messages.
If a typed System message is present the behaviour prompt is not added; if
none is present the prompt is prepended exactly once; and when no raw message
coerces to a System message in any form, the payload contains exactly one
System message — also after appending the AI response and re-running the
step, so two consecutive LLM steps never accumulate two prompts. -/
theorem call_model_one_system_prompt (msgs : List RawMsg) :
    (hasSystemMsg msgs = true →
      callModelPayload msgs = msgs.filterMap coerceOne) ∧
    (hasSystemMsg msgs = false →
      callModelPayload msgs =
        Msg.system STUDY_ASSISTANT_SYSTEM_PROMPT :: msgs.filterMap coerceOne) ∧
    ((∀ m ∈ msgs, ∀ c, coerceOne m ≠ some (.system c)) →
      countSystem (callModelPayload msgs) = 1 ∧
      ∀ c tc,
        countSystem (callModelPayload (msgs ++ [RawMsg.typed (.ai c tc)])) = 1) := by
  refine ⟨fun htrue => ?_, fun hfalse => ?_, fun hno => ⟨countSystem_payload_one msgs hno, ?_⟩⟩
  · rw [callModelPayload_eq_coerceMessages]
    unfold coerceMessages
    rw [htrue]
    simp
  · rw [callModelPayload_eq_coerceMessages]
    unfold coerceMessages
    rw [hfalse]
    simp
  · intro c tc
    refine countSystem_payload_one _ ?_
    intro m hm c'
    rcases List.mem_append.mp hm with hmem | hmem
    · exact hno m hmem c'
    · rcases List.mem_singleton.mp hmem with rfl
      simp [coerceOne]

/-- Witness for C3 (amended): a state of one Human string gets exactly one
System prompt, before and after the AI response is appended. -/
theorem call_model_one_system_prompt_witness :
    countSystem (callModelPayload [RawMsg.str "hello"]) = 1 ∧
    countSystem
      (callModelPayload [RawMsg.str "hello", RawMsg.typed (.ai "hi" none)]) = 1 :=
  ⟨((call_model_one_system_prompt [RawMsg.str "hello"]).2.2
      (by intro m hm c; rcases List.mem_singleton.mp hm with rfl; simp [coerceOne])).1,
   ((call_model_one_system_prompt [RawMsg.str "hello"]).2.2
      (by intro m hm c; rcases List.mem_singleton.mp hm with rfl; simp [coerceOne])).2 "hi" none⟩

/-- Counterexample to C3 as stated: a state whose System message is a
role-tagged pair — a form the data model coerces to a System message — is not
recognised by the presence check, so the behaviour prompt is prepended as well
and the payload passed to the model carries two System messages. -/
theorem call_model_pair_system_double :
    ([RawMsg.pair "system" "exam rules"].filterMap coerceOne
        = [Msg.system "exam rules"]) ∧
    countSystem (callModelPayload [RawMsg.pair "system" "exam rules"]) = 2 := by
  decide

/-- Counterexample to C4: on the empty conversation state `call_model` does
not fail — no `EmptyConversationError` exists in the code — it invokes the
model with the prepended behaviour prompt as the sole message. -/
theorem call_model_empty_invokes :
    call_model true [] = .ok [Msg.system STUDY_ASSISTANT_SYSTEM_PROMPT] := rfl

/-- C4 (amended): on the empty conversation state the step raises only the
line 33 uninitialised-model error; with an initialised model it proceeds and
invokes the model on the single-element prompt payload. -/
theorem call_model_empty_spec (b : Bool) :
    call_model b [] =
      if b then Except.ok [Msg.system STUDY_ASSISTANT_SYSTEM_PROMPT]
      else Except.error "LLM_WITH_TOOLS is not initialized." := by
  cases b <;> rfl

/-! ## Tool boundary and fallback dispatch
(`tools/__init__.py` lines 84-95, `agent_core.py` lines 230-328)

Tool functions may raise; we embed them as functions into `Except`.  The
fallback executor's `ToolsState.run` resolves each tool-call name against
`tool_callable_map` (an insertion-ordered dict with unique keys, embedded as
an association list) and invokes the resolved function inside a failure
boundary.  `dispatchOne` additionally returns the list of invocation events
actually performed — one event per call of a tool function — so that theorems
can speak about resolution order and invocation counts. -/

/-- A registered tool function: optional string input, string output or a
raised exception (payload irrelevant to dispatch, which discards it). -/
def ToolFn := Option String → Except Unit String

/-- One entry of `tool_callable_map` (agent_core.py lines 231-238). -/
structure ToolEntry where
  name : String
  func : ToolFn

/-- An invocation event of `ToolsState.run`: which resolution path called a
tool function.  `exact` is the direct dict lookup (line 289), `substr` the
equality-or-substring scan (lines 296-303), `sole` the single-registered-tool
fallback (lines 304-310). -/
inductive DispatchEv where
  | exact (name : String)
  | substr (name tname : String)
  | sole (tname : String)
deriving DecidableEq, Repr

/-- `try: out = f(inp) except: out = None` (lines 290-293, 298-302,
306-310). -/
def invokeOpt (f : ToolFn) (inp : Option String) : Option String :=
  match f inp with
  | .ok s => some s
  | .error _ => none

/-- Dict key lookup `name in tool_callable_map` / `tool_callable_map[name]`
(line 289): first entry with the exact name. -/
def lookupTool (reg : List ToolEntry) (n : String) : Option ToolEntry :=
  reg.find? (fun t => t.name == n)

/-- The scan of lines 297-303: first entry whose name equals the requested
name or contains it as a substring (`name == tname or name in tname`). -/
def substrMatch (reg : List ToolEntry) (n : String) : Option ToolEntry :=
  reg.find? (fun t => n == t.name || decide (n.toList <:+: t.name.toList))

/-- Output normalisation of lines 312-321: `None` becomes the empty string,
strings pass through (our tool outputs are already strings). -/
def outText : Option String → String
  | none => ""
  | some s => s

/-- The fallback half of the resolution (the `else` of line 294 plus the
sole-tool fallback of lines 304-310), entered when the exact dict lookup did
not apply. -/
def dispatchFallback (reg : List ToolEntry) (name : Option String)
    (inp : Option String) : String × List DispatchEv :=
  let s1 : Option String × List DispatchEv :=
    match name with
    | some n =>
      match substrMatch reg n with
      | some t => (invokeOpt t.func inp, [.substr n t.name])
      | none => (none, [])
    | none => (none, [])
  match reg with
  | [t] =>
    if s1.1.isNone then (outText (invokeOpt t.func inp), s1.2 ++ [.sole t.name])
    else (outText s1.1, s1.2)
  | _ => (outText s1.1, s1.2)

/-- Resolution and invocation for a single tool call (`ToolsState.run` lines
287-321): exact dict lookup first; otherwise the substring scan and, if still
no output and exactly one tool is registered, the sole-tool fallback. -/
def dispatchOne (reg : List ToolEntry) (name : Option String)
    (inp : Option String) : String × List DispatchEv :=
  match name with
  | some n =>
    match lookupTool reg n with
    | some t => (outText (invokeOpt t.func inp), [.exact n])
    | none => dispatchFallback reg (some n) inp
  | none => dispatchFallback reg none inp

/-- `ToolsState.run` (lines 244-328): with no tool calls the result list is
empty; otherwise each call's output text is wrapped as a message
(`HumanMessage(content=out_text)`, line 323-324) in invocation order. -/
def ToolsState_run (reg : List ToolEntry) (toolCalls : Option (List ToolCallReq)) :
    List Msg :=
  match toolCalls with
  | none => []
  | some calls => calls.map fun c => Msg.human (dispatchOne reg c.name c.input).1

/-- A repository tool function wrapped by `make_tool_wrapper`: string in,
string out, may raise with a message (`str(e)`). -/
def WrapFn := String → Except String String

/-- `make_tool_wrapper` (tools/__init__.py lines 84-95): the langchain-facing
wrapper catches any exception of the underlying function and renders it as an
error string. -/
def make_tool_wrapper (original_func : WrapFn) (query : String) : String :=
  match original_func query with
  | .ok s => s
  | .error e => "Tool execution error: " ++ e

/-- C2: tool-name resolution order.  (i) An exact registry match is used
directly — the single invocation event is `exact`, so neither the substring
scan nor the sole-tool fallback runs; (ii) a substring invocation happens only
when the exact lookup failed; (iii) the sole-tool fallback is invoked only
when exactly one tool is registered; (iv) when the exact lookup fails and the
scan finds an equality-or-substring match, that tool is invoked. -/
theorem dispatch_resolution_order (reg : List ToolEntry) (name inp : Option String) :
    (∀ n, name = some n → (lookupTool reg n).isSome →
      (dispatchOne reg name inp).2 = [.exact n]) ∧
    (∀ n tn, DispatchEv.substr n tn ∈ (dispatchOne reg name inp).2 →
      name = some n ∧ lookupTool reg n = none) ∧
    (∀ tn, DispatchEv.sole tn ∈ (dispatchOne reg name inp).2 → reg.length = 1) ∧
    (∀ n t, name = some n → lookupTool reg n = none → substrMatch reg n = some t →
      DispatchEv.substr n t.name ∈ (dispatchOne reg name inp).2) := by
  refine ⟨?_, ?_⟩
  · intro n hn hsome
    subst hn
    rcases ho : lookupTool reg n with _ | t
    · rw [ho] at hsome; simp at hsome
    · simp [dispatchOne, ho]
  · rcases name with _ | n
    · rcases reg with _ | ⟨t1, _ | ⟨t2, r⟩⟩ <;>
        simp [dispatchOne, dispatchFallback]
    · rcases ho : lookupTool reg n with _ | t
      · rcases hs : substrMatch reg n with _ | t'
        · rcases reg with _ | ⟨t1, _ | ⟨t2, r⟩⟩ <;>
            simp [dispatchOne, dispatchFallback, ho, hs] <;>
            (intro a b hab hlk hsm; subst hab; rw [hs] at hsm; exact Option.noConfusion hsm)
        · rcases reg with _ | ⟨t1, _ | ⟨t2, r⟩⟩
          · simp [substrMatch] at hs
          · rcases hinv : invokeOpt t'.func inp with _ | s <;>
              simp [dispatchOne, dispatchFallback, ho, hs, hinv] <;>
              (intro a b hab hlk hsm; subst hab; rw [hs] at hsm; injection hsm with hb;
               exact ⟨rfl, by rw [hb]⟩)
          · simp [dispatchOne, dispatchFallback, ho, hs]
            intro a b hab hlk hsm
            subst hab
            rw [hs] at hsm
            injection hsm with hb
            exact ⟨rfl, by rw [hb]⟩
      · simp [dispatchOne, ho]
        intro a b hab hlk
        subst hab
        rw [ho] at hlk
        exact Option.noConfusion hlk

/-- Witness for C2: with the tool registered under its exact name, dispatch
resolves it by the direct lookup alone. -/
theorem dispatch_resolution_order_witness :
    (dispatchOne [⟨"course_knowledge_search", fun _ => Except.ok "ans"⟩]
        (some "course_knowledge_search") none).2
      = [DispatchEv.exact "course_knowledge_search"] :=
  (dispatch_resolution_order _ _ none).1 _ rfl (by decide)

/-- A sole registered tool whose invocations always raise. -/
def failing_web_search : ToolEntry := ⟨"web_search", fun _ => .error ()⟩

/-- Counterexample to C10 as stated: when the tool-call name is missing (or
not a string), the sole-registered-tool fallback performs the first and only
invocation — the failing sole tool is executed once, not twice. -/
theorem dispatch_sole_missing_name_single :
    dispatchOne [failing_web_search] none none = ("", [DispatchEv.sole "web_search"]) ∧
    (dispatchOne [failing_web_search] none none).2.length = 1 :=
  ⟨rfl, rfl⟩

/-- C10 (amended): with exactly one registered tool that raises, a name
resolving by proper substring match makes dispatch invoke the same tool a
second time through the sole-tool fallback before yielding empty output;
with a missing or non-string name the sole tool is invoked only once, the
fallback being the first invocation. -/
theorem dispatch_sole_retry :
    (∀ (f : ToolFn) (n tn : String) (inp : Option String),
        (n == tn) = false → n.toList <:+: tn.toList → f inp = .error () →
        dispatchOne [⟨tn, f⟩] (some n) inp =
          ("", [DispatchEv.substr n tn, DispatchEv.sole tn])) ∧
    (∀ (f : ToolFn) (tn : String) (inp : Option String), f inp = .error () →
        dispatchOne [⟨tn, f⟩] none inp = ("", [DispatchEv.sole tn])) := by
  constructor
  · intro f n tn inp hne hsub hf
    have hne' : (tn == n) = false := by
      rw [beq_eq_false_iff_ne] at hne ⊢
      exact fun h => hne h.symm
    have hsub' : n.data <:+: tn.data := hsub
    simp [dispatchOne, dispatchFallback, lookupTool, substrMatch, invokeOpt,
      hne, hne', hf, hsub', outText]
  · intro f tn inp hf
    simp [dispatchOne, dispatchFallback, invokeOpt, hf, outText]

/-- Witness for C10 (amended): `"search"` substring-matches the sole tool
`"web_search"`; with the tool raising, it is invoked twice and the output is
empty. -/
theorem dispatch_sole_retry_witness :
    dispatchOne [⟨"web_search", fun _ => Except.error ()⟩] (some "search") none =
      ("", [DispatchEv.substr "search" "web_search", DispatchEv.sole "web_search"]) :=
  dispatch_sole_retry.1 _ "search" "web_search" none (by decide) (by decide) rfl

/-- If every registered tool raises on the given input, dispatch yields the
empty output text (no exception escapes). -/
theorem dispatch_all_fail_empty (reg : List ToolEntry) (name inp : Option String)
    (hall : ∀ t ∈ reg, t.func inp = .error ()) :
    (dispatchOne reg name inp).1 = "" := by
  have hfall : ∀ nm, (dispatchFallback reg nm inp).1 = "" := by
    intro nm
    rcases nm with _ | n
    · rcases reg with _ | ⟨t1, _ | ⟨t2, r⟩⟩
      · simp [dispatchFallback, outText]
      · have h1 := hall t1 (by simp)
        simp [dispatchFallback, invokeOpt, h1, outText]
      · simp [dispatchFallback, outText]
    · rcases hs : substrMatch reg n with _ | t'
      · rcases reg with _ | ⟨t1, _ | ⟨t2, r⟩⟩
        · simp [dispatchFallback, hs, outText]
        · have h1 := hall t1 (by simp)
          simp [dispatchFallback, hs, invokeOpt, h1, outText]
        · simp [dispatchFallback, hs, outText]
      · have ht' : t'.func inp = .error () :=
          hall t' (List.mem_of_find?_eq_some (by simpa [substrMatch] using hs))
        rcases reg with _ | ⟨t1, _ | ⟨t2, r⟩⟩
        · simp [substrMatch] at hs
        · have h1 := hall t1 (by simp)
          simp [dispatchFallback, hs, invokeOpt, ht', h1, outText]
        · simp [dispatchFallback, hs, invokeOpt, ht', outText]
  rcases name with _ | n
  · simpa [dispatchOne] using hfall none
  · rcases ho : lookupTool reg n with _ | t
    · simpa [dispatchOne, ho] using hfall (some n)
    · have ht : t.func inp = .error () :=
        hall t (List.mem_of_find?_eq_some (by simpa [lookupTool] using ho))
      simp [dispatchOne, ho, invokeOpt, ht, outText]

/-- C5: failures never escape the tool boundary.  The langchain-facing
wrapper is a total string function that forwards successful results and
renders a raised exception as the prefixed error string; and the fallback
dispatch step converts raising tools into empty textual output wrapped as
messages, one per invocation request, so a tool failure never aborts the
turn. -/
theorem tool_failure_boundary :
    (∀ (f : WrapFn) (q s : String), f q = .ok s → make_tool_wrapper f q = s) ∧
    (∀ (f : WrapFn) (q e : String), f q = .error e →
        make_tool_wrapper f q = "Tool execution error: " ++ e) ∧
    (∀ (reg : List ToolEntry) (name inp : Option String),
        (∀ t ∈ reg, t.func inp = .error ()) → (dispatchOne reg name inp).1 = "") ∧
    (∀ (reg : List ToolEntry) (calls : List ToolCallReq),
        (∀ t ∈ reg, ∀ i, t.func i = .error ()) →
        ToolsState_run reg (some calls) = calls.map fun _ => Msg.human "") := by
  refine ⟨?_, ?_, dispatch_all_fail_empty, ?_⟩
  · intro f q s h
    simp [make_tool_wrapper, h]
  · intro f q e h
    simp [make_tool_wrapper, h]
  · intro reg calls hall
    unfold ToolsState_run
    refine List.map_congr_left ?_
    intro c _
    rw [dispatch_all_fail_empty reg c.name c.input (fun t ht => hall t ht c.input)]

/-- Witness for C5: a raising wrapped tool yields the prefixed error string,
and a raising registered tool yields empty dispatch output. -/
theorem tool_failure_boundary_witness :
    make_tool_wrapper (fun _ => Except.error "boom") "q" = "Tool execution error: boom" ∧
    (dispatchOne [⟨"python_interpreter", fun _ => Except.error ()⟩]
        (some "python_interpreter") (some "1+1")).1 = "" :=
  ⟨tool_failure_boundary.2.1 _ "q" "boom" rfl,
   tool_failure_boundary.2.2.1 _ _ _
     (by intro t ht; rcases List.mem_singleton.mp ht with rfl; rfl)⟩

/-! ## Text splitting (`rag_logic/data_loader.py` lines 128-152)

The in-repo splitting logic is the character-window fallback of
`split_text` (lines 130-145); the library splitter taken when
`RecursiveCharacterTextSplitter` imports is an external collaborator.  The
`while start < len(text)` loop is embedded with an explicit fuel bound on the
number of iterations; `split_go_stable` shows the bound used by `split_text`
is sufficient whenever `chunk_overlap < chunk_size`. -/

/-- One source document / chunk: `page_content` (a Python string, embedded as
its character list so window arithmetic is positional) plus the metadata
dict. -/
structure SimpleDoc where
  page_content : List Char
  metadata : List (String × String)
deriving DecidableEq, Repr

/-- The window loop of `split_text` (lines 134-144): at `start`, take
`text[start:end]` with `end = min(start + chunk_size, len(text))`; continue
from `end - chunk_overlap` while `end < len(text)`.  The first argument of
the recursion is the iteration fuel. -/
def split_go (text : List Char) (chunk_size chunk_overlap : Nat) :
    Nat → Nat → List (List Char)
  | 0, _ => []
  | fuel + 1, start =>
    if start < text.length then
      let e := min (start + chunk_size) text.length
      (text.drop start).take (e - start) ::
        (if e < text.length then split_go text chunk_size chunk_overlap fuel (e - chunk_overlap)
         else [])
    else []

/-- The same loop, recording the window start positions instead of the chunk
texts. -/
def startsGo (len chunk_size chunk_overlap : Nat) : Nat → Nat → List Nat
  | 0, _ => []
  | fuel + 1, start =>
    if start < len then
      let e := min (start + chunk_size) len
      start ::
        (if e < len then startsGo len chunk_size chunk_overlap fuel (e - chunk_overlap)
         else [])
    else []

/-- `split_text(documents, chunk_size, chunk_overlap)` (fallback path, lines
130-145): split every document's text by the sliding window; resulting
chunks carry empty metadata (`SimpleDoc` of line 139-143).  The fuel
`text.length` bounds the loop; `split_go_stable` proves it sufficient for
`chunk_overlap < chunk_size`. -/
def split_text (documents : List SimpleDoc) (chunk_size chunk_overlap : Nat) :
    List SimpleDoc :=
  documents.flatMap fun d =>
    (split_go d.page_content chunk_size chunk_overlap d.page_content.length 0).map
      fun c => ⟨c, []⟩

/-- The start-position update of one loop iteration (lines 136 and 144),
over ℤ since Python's `end - chunk_overlap` can go negative: from `start`,
the next window starts at `min(start + chunk_size, len) - chunk_overlap`. -/
def splitStep (len chunk_size chunk_overlap : Nat) (start : Int) : Int :=
  min (start + chunk_size) len - chunk_overlap

/-- The chunk list is the window list evaluated at the recorded starts. -/
theorem split_go_eq_map_startsGo (text : List Char) (cs co : Nat) :
    ∀ fuel start,
      split_go text cs co fuel start =
        (startsGo text.length cs co fuel start).map
          (fun s => (text.drop s).take (min (s + cs) text.length - s)) := by
  intro fuel
  induction fuel with
  | zero => intro start; rfl
  | succ f ih =>
    intro start
    by_cases hlt : start < text.length
    · by_cases he : min (start + cs) text.length < text.length
      · simp [split_go, startsGo, hlt, he, ih]
      · simp [split_go, startsGo, hlt, he]
    · simp [split_go, startsGo, hlt]

/-- With positive advance (`chunk_overlap < chunk_size`), any two sufficient
fuels compute the same chunk list: the loop terminates and `text.length`
iterations always suffice. -/
theorem split_go_stable (text : List Char) (cs co : Nat) (hco : co < cs) :
    ∀ f₁ f₂ start, text.length - start ≤ f₁ → text.length - start ≤ f₂ →
      split_go text cs co f₁ start = split_go text cs co f₂ start := by
  intro f₁
  induction f₁ with
  | zero =>
    intro f₂ start h1 _
    have hge : text.length ≤ start := by omega
    cases f₂ with
    | zero => rfl
    | succ g => simp [split_go, Nat.not_lt.mpr hge]
  | succ a ih =>
    intro f₂ start h1 h2
    cases f₂ with
    | zero =>
      have hge : text.length ≤ start := by omega
      simp [split_go, Nat.not_lt.mpr hge]
    | succ b =>
      by_cases hlt : start < text.length
      · by_cases he : min (start + cs) text.length < text.length
        · have heq : min (start + cs) text.length = start + cs := by omega
          have hrec : text.length - (min (start + cs) text.length - co) ≤ a := by omega
          have hrec2 : text.length - (min (start + cs) text.length - co) ≤ b := by omega
          simp only [split_go, if_pos hlt, if_pos he]
          rw [ih b _ hrec hrec2]
        · simp [split_go, hlt, he]
      · simp [split_go, hlt]

/-- Successive window starts advance by exactly `chunk_size - chunk_overlap`
(for `chunk_overlap ≤ chunk_size`; the loop recurses only while
`end < len`, where `end = start + chunk_size`). -/
theorem startsGo_chain (len cs co : Nat) (hco : co ≤ cs) :
    ∀ fuel start,
      List.Chain' (fun a b => b = a + (cs - co)) (startsGo len cs co fuel start) := by
  intro fuel
  induction fuel with
  | zero => intro start; exact List.chain'_nil
  | succ f ih =>
    intro start
    by_cases hlt : start < len
    · by_cases he : min (start + cs) len < len
      · simp only [startsGo, if_pos hlt, if_pos he]
        rw [List.chain'_cons']
        refine ⟨?_, ih _⟩
        intro y hy
        cases f with
        | zero => simp [startsGo] at hy
        | succ g =>
          have hlt' : min (start + cs) len - co < len := by omega
          simp only [startsGo, if_pos hlt', List.head?_cons, Option.mem_def,
            Option.some.injEq] at hy
          omega
      · simp [startsGo, hlt, he]
    · simp [startsGo, hlt]

/-- Coverage: with positive advance and sufficient fuel, every character
position of the text lies inside at least one produced window — the chunks
cover the source with no gaps. -/
theorem startsGo_cover (len cs co : Nat) (hco : co < cs) :
    ∀ fuel start p, len - start ≤ fuel → start ≤ p → p < len →
      ∃ s ∈ startsGo len cs co fuel start, s ≤ p ∧ p < min (s + cs) len := by
  intro fuel
  induction fuel with
  | zero => intro start p h1 h2 h3; omega
  | succ f ih =>
    intro start p h1 h2 h3
    have hlt : start < len := by omega
    by_cases hp : p < min (start + cs) len
    · refine ⟨start, ?_, h2, hp⟩
      simp [startsGo, hlt]
    · have he : min (start + cs) len < len := by omega
      obtain ⟨s, hmem, hsp, hps⟩ :=
        ih (min (start + cs) len - co) p (by omega) (by omega) h3
      refine ⟨s, ?_, hsp, hps⟩
      simp only [startsGo, if_pos hlt, if_pos he, List.mem_cons]
      exact Or.inr hmem

/-- A non-empty text of length at most `chunk_size` is returned as one chunk:
the whole text. -/
theorem split_go_single (text : List Char) (cs co fuel : Nat)
    (h0 : 0 < text.length) (hle : text.length ≤ cs) (hf : 1 ≤ fuel) :
    split_go text cs co fuel 0 = [text] := by
  cases fuel with
  | zero => omega
  | succ f =>
    have hmin : min (0 + cs) text.length = text.length := by omega
    simp [split_go, h0, hmin]
    exact ⟨hle, fun hcontra => absurd hcontra (by omega)⟩

/-- C6 (amended): for `chunk_size = 1000`, `chunk_overlap = 200`, the split
of a document is the window list evaluated at the recorded starts; a
*non-empty* text of length ≤ 1000 yields exactly one chunk (the empty text
yields none); successive window starts advance by exactly 800; and every
character position is covered by some window — no gaps. -/
theorem split_text_window (text : List Char) :
    split_text [⟨text, []⟩] 1000 200 =
      (split_go text 1000 200 text.length 0).map (fun c => (⟨c, []⟩ : SimpleDoc)) ∧
    (0 < text.length → text.length ≤ 1000 →
      split_go text 1000 200 text.length 0 = [text]) ∧
    List.Chain' (fun a b => b = a + 800)
      (startsGo text.length 1000 200 text.length 0) ∧
    split_go text 1000 200 text.length 0 =
      (startsGo text.length 1000 200 text.length 0).map
        (fun s => (text.drop s).take (min (s + 1000) text.length - s)) ∧
    ∀ p, p < text.length →
      ∃ s ∈ startsGo text.length 1000 200 text.length 0,
        s ≤ p ∧ p < min (s + 1000) text.length := by
  refine ⟨?_, ?_, ?_, split_go_eq_map_startsGo text 1000 200 _ 0, ?_⟩
  · simp [split_text]
  · intro h0 hle
    exact split_go_single text 1000 200 _ h0 hle (by omega)
  · have h := startsGo_chain text.length 1000 200 (by omega) text.length 0
    norm_num at h
    exact h
  · intro p hp
    exact startsGo_cover text.length 1000 200 (by omega) text.length 0 p
      (by omega) (by omega) hp

/-- Witness for C6 (amended): a two-character text yields the single chunk
containing the whole text, and character position 1 is covered. -/
theorem split_text_window_witness :
    split_go ['a', 'b'] 1000 200 (['a', 'b'] : List Char).length 0 = [['a', 'b']] ∧
    ∃ s ∈ startsGo (['a', 'b'] : List Char).length 1000 200
        (['a', 'b'] : List Char).length 0,
      s ≤ 1 ∧ 1 < min (s + 1000) (['a', 'b'] : List Char).length :=
  ⟨(split_text_window ['a', 'b']).2.1 (by decide) (by decide),
   (split_text_window ['a', 'b']).2.2.2.2 1 (by decide)⟩

/-- Counterexample to C6 as stated: the empty text has length 0 ≤ 1000 but
the split produces no chunk at all (the `while` loop body never runs), not
exactly one. -/
theorem split_text_empty_no_chunk :
    split_text [⟨[], []⟩] 1000 200 = [] ∧ ([] : List Char).length ≤ 1000 :=
  ⟨rfl, by decide⟩

/-- C7: with `chunk_overlap < chunk_size` the window always advances, so the
split terminates — any fuel of at least `text.length` iterations computes the
same final chunk list; with `chunk_overlap ≥ chunk_size` and the text longer
than `chunk_size`, the start-position update never advances the window. -/
theorem split_termination :
    (∀ (text : List Char) (cs co : Nat), co < cs →
      ∀ f₁ f₂, text.length ≤ f₁ → text.length ≤ f₂ →
        split_go text cs co f₁ 0 = split_go text cs co f₂ 0) ∧
    (∀ (len cs co : Nat) (s : Int), cs ≤ co → s + cs < (len : Int) →
      splitStep len cs co s ≤ s) := by
  constructor
  · intro text cs co hco f₁ f₂ h1 h2
    exact split_go_stable text cs co hco f₁ f₂ 0 (by omega) (by omega)
  · intro len cs co s hco hlt
    unfold splitStep
    omega

/-- Witness for C7: fuels 3 and 7 agree on a length-3 text with overlap 1 <
size 2; and with size 2 ≤ overlap 5 the update does not advance start 0 on a
length-10 text. -/
theorem split_termination_witness :
    split_go ['a', 'b', 'c'] 2 1 3 0 = split_go ['a', 'b', 'c'] 2 1 7 0 ∧
    splitStep 10 2 5 0 ≤ 0 :=
  ⟨split_termination.1 ['a', 'b', 'c'] 2 1 (by decide) 3 7 (by decide) (by decide),
   split_termination.2 10 2 5 0 (by decide) (by decide)⟩

/-! ## Vector-store indexing (`rag_logic/vector_store.py` lines 39-90)

We model `create_vector_store` at the indexing boundary: the `(id, document)`
batch it passes to `collection.add` (line 89).  The chroma collection itself
is external; by lines 62-73 it is persistent and reused across calls
(`get_or_create_collection`), so id collisions across calls address the same
stored entries. -/

/-- The id scheme of line 82: `ids = [f"doc_{i}" for i in range(len(texts))]`,
regenerated from 0 on every call. -/
def make_ids (n : Nat) : List String :=
  (List.range n).map fun i => "doc_" ++ toString i

/-- `create_vector_store(documents, ...)` at the `collection.add` boundary:
ids from `make_ids`, texts the documents' `page_content` (line 81). -/
def create_vector_store (documents : List SimpleDoc) : List (String × List Char) :=
  (make_ids documents.length).zip (documents.map fun d => d.page_content)

/-- Counterexample to C8: two successive indexing calls both label their
first chunk `doc_0` — the second call's batch reuses the ids of the first,
so the calls collide in the shared persistent collection. -/
theorem create_vector_store_id_collision :
    (create_vector_store [⟨['a'], []⟩]).map Prod.fst = ["doc_0"] ∧
    (create_vector_store [⟨['b'], []⟩, ⟨['c'], []⟩]).map Prod.fst
      = ["doc_0", "doc_1"] := by
  decide

/-- C8 (amended): ids are `doc_0 .. doc_(n-1)` regenerated per call, so
any two calls with non-empty documents produce overlapping id sets — both
contain `doc_0`.  Append-only without collision holds at most within a
single call, never across calls. -/
theorem create_vector_store_ids_restart (docs1 docs2 : List SimpleDoc)
    (h1 : docs1 ≠ []) (h2 : docs2 ≠ []) :
    "doc_0" ∈ (create_vector_store docs1).map Prod.fst ∧
    "doc_0" ∈ (create_vector_store docs2).map Prod.fst := by
  have key : ∀ (docs : List SimpleDoc), docs ≠ [] →
      "doc_0" ∈ (create_vector_store docs).map Prod.fst := by
    intro docs hne
    unfold create_vector_store
    rw [List.map_fst_zip _ _ (by simp [make_ids])]
    refine List.mem_map.mpr ⟨0, List.mem_range.mpr ?_, rfl⟩
    cases docs with
    | nil => exact absurd rfl hne
    | cons d r => simp
  exact ⟨key docs1 h1, key docs2 h2⟩

/-- Witness for C8 (amended): two concrete non-empty calls both carry
`doc_0`. -/
theorem create_vector_store_ids_restart_witness :
    "doc_0" ∈ (create_vector_store [⟨['x'], []⟩]).map Prod.fst ∧
    "doc_0" ∈ (create_vector_store [⟨['y'], []⟩, ⟨['z'], []⟩]).map Prod.fst :=
  create_vector_store_ids_restart _ _ (by simp) (by simp)

/-! ## The upload endpoint (`api.py` lines 185-286)

`upload_files` loads each file by extension, tags the loaded documents with
the session, aggregates, splits and indexes, reporting per-file status.  The
actual loaders are thin I/O wrappers over external parsers; each file's load
outcome (the document list returned, or the exception raised) is therefore an
input of the embedding, carried in `FileUpload.loadResult`. -/

/-- Python `str.endswith` over our character-list strings. -/
def endswith (s suffix : String) : Bool :=
  suffix.toList.isSuffixOf s.toList

/-- The extension dispatch of lines 210-218: `.txt`, `.pdf`, `.docx`/`.doc`
are routed to a loader; everything else is unsupported (line 219-227). -/
def supportedExt (fn : String) : Bool :=
  endswith fn ".txt" || endswith fn ".pdf" || endswith fn ".docx" || endswith fn ".doc"

/-- `os.path.splitext(...)[1]` as used for the error message (lines 198,
225): the suffix from the last dot, or empty without one.  (splitext's
hidden-file corner cases are not modelled; no claim touches the message
text.) -/
def extSuffix (fn : String) : String :=
  let r := fn.toList.reverse
  if r.contains '.' then
    String.mk ('.' :: (r.takeWhile fun c => !(c == '.')).reverse)
  else ""

/-- An uploaded file: its name and its load outcome (lines 210-218; the
loader's exception message when loading fails). -/
structure FileUpload where
  filename : String
  loadResult : Except String (List SimpleDoc)

/-- The metadata tagging of lines 231-237: set `session_id` and
`source_file` on each loaded document (the dict-update is modelled as
appending the two keys; no claim inspects prior metadata). -/
def tagDoc (session_id source_file : String) (d : SimpleDoc) : SimpleDoc :=
  ⟨d.page_content,
   d.metadata ++ [("session_id", session_id), ("source_file", source_file)]⟩

/-- One entry of the `processed_files` status list (lines 222-226, 240-244,
249-253). -/
structure FileReport where
  filename : String
  status : String
  chunks : Option Nat
  error : Option String
deriving DecidableEq, Repr

/-- The endpoint's JSON response (lines 269-280). -/
structure UploadResponse where
  message : String
  files : List FileReport
  total_chunks : Nat
deriving DecidableEq, Repr

/-- Per-file processing (lines 208-257): a supported file that loads yields a
`success` report carrying the loaded-document count and contributes its
tagged documents; a supported file whose loader raises yields an `error`
report; an unsupported extension yields an `error` report and is skipped. -/
def processFile (session_id : String) (f : FileUpload) :
    FileReport × List SimpleDoc :=
  if supportedExt f.filename then
    match f.loadResult with
    | .ok documents =>
        (⟨f.filename, "success", some documents.length, none⟩,
         documents.map (tagDoc session_id f.filename))
    | .error e => (⟨f.filename, "error", none, some e⟩, [])
  else
    (⟨f.filename, "error", none,
      some ("Unsupported file type: " ++ extSuffix f.filename)⟩, [])

/-- `upload_files` (lines 185-280): process every file, aggregate the tagged
documents, split them (chunk_size 1000, overlap 200, line 262) and report the
per-file statuses plus the total chunk count. -/
def upload_files (files : List FileUpload) (session_id : String) : UploadResponse :=
  let processed := files.map (processFile session_id)
  let processed_files := processed.map Prod.fst
  let all_documents := (processed.map Prod.snd).flatten
  if all_documents.isEmpty then
    ⟨"No valid documents to process", processed_files, 0⟩
  else
    ⟨"Successfully processed " ++ toString processed_files.length ++ " file(s)",
     processed_files, (split_text all_documents 1000 200).length⟩

/-- C9: a batch of one supported file that loads and one unsupported file
yields a per-file report marking the first `success` with its loaded count
and the second `error` (no fatal failure), and the reported total chunk
count is computed from the supported file's documents alone. -/
theorem upload_mixed_batch (sid : String) (f1 f2 : FileUpload)
    (docs : List SimpleDoc)
    (h1 : supportedExt f1.filename = true)
    (hl : f1.loadResult = .ok docs)
    (h2 : supportedExt f2.filename = false) :
    (upload_files [f1, f2] sid).files =
      [⟨f1.filename, "success", some docs.length, none⟩,
       ⟨f2.filename, "error", none,
        some ("Unsupported file type: " ++ extSuffix f2.filename)⟩] ∧
    (upload_files [f1, f2] sid).total_chunks =
      (split_text (docs.map (tagDoc sid f1.filename)) 1000 200).length := by
  rcases docs with _ | ⟨d, ds⟩
  · simp [upload_files, processFile, h1, h2, hl, split_text]
  · simp [upload_files, processFile, h1, h2, hl]

/-- Witness for C9: `notes.txt` loading one document succeeds with count 1,
`image.png` is reported as an error, and only `notes.txt` contributes
chunks. -/
theorem upload_mixed_batch_witness :
    (upload_files [⟨"notes.txt", .ok [⟨['h', 'i'], []⟩]⟩, ⟨"image.png", .ok []⟩]
        "sess").files =
      [⟨"notes.txt", "success", some 1, none⟩,
       ⟨"image.png", "error", none,
        some ("Unsupported file type: " ++ extSuffix "image.png")⟩] ∧
    (upload_files [⟨"notes.txt", .ok [⟨['h', 'i'], []⟩]⟩, ⟨"image.png", .ok []⟩]
        "sess").total_chunks =
      (split_text ([⟨['h', 'i'], []⟩].map (tagDoc "sess" "notes.txt")) 1000 200).length :=
  upload_mixed_batch "sess" _ _ [⟨['h', 'i'], []⟩] (by decide) rfl (by decide)

end StudyAssistant
